import Mathlib

/-!
Verification development for the ts3automovebot repository.

The repository carries three revisions of the same poller/decision program:
the plain version in main.go (modelled here in namespace Main0), the
revision with solo tracking and an unconditional grace skip (part_001,
namespace Rev1), and the revision with the AllowGracePeriod flag and the
recentJoins map (part_002, namespace Rev2).

The remote query boundary is modelled explicitly: the results of
ChannelList and ClientList are Option-valued inputs of each cycle function
(none models a failed listing), and each client's idle time is carried as
a field of the client snapshot (the clientinfo fetch and regex parse are
modelled as succeeding with that value; per-item RPC failures are the
external boundary excluded by the spec).  Log lines become Event values so
that skip reasons and move commands are observable; a clientmove command
becomes an Event.move value.  A call of zap Fatal or log.Fatal terminates
the process and is modelled as the fatal outcome.
-/

structure Channel where
  id : Int
  name : String
deriving DecidableEq

structure Client where
  id : Int
  nickname : String
  channelId : Int
  idleTimeMs : Int
deriving DecidableEq

/-- One observable action of a cycle: a skip (with its logged reason) or a
clientmove command. -/
inductive Event where
  | skipRecentJoin (clientId : Int)
  | notIdle (clientId : Int)
  | skipIgnored (clientId : Int)
  | skipAfk (clientId : Int)
  | skipSolo (clientId : Int)
  | skipGrace (clientId : Int)
  | move (clientId : Int) (targetChannelId : Int)
deriving DecidableEq

/-- The client an event concerns. -/
def Event.clientId : Event → Int
  | .skipRecentJoin i => i
  | .notIdle i => i
  | .skipIgnored i => i
  | .skipAfk i => i
  | .skipSolo i => i
  | .skipGrace i => i
  | .move i _ => i

/-- The clientmove commands of a trace, as (clientId, targetChannelId). -/
def movesOf (tr : List Event) : List (Int × Int) :=
  tr.filterMap fun e =>
    match e with
    | .move i t => some (i, t)
    | _ => none

/-- The afk channel resolution loop shared verbatim by all three revisions:
afkChannelId starts at 0 and is overwritten by every channel whose name
equals the configured name (last match wins). -/
def resolveAfkId (channels : List Channel) (afkName : String) : Int :=
  channels.foldl (fun acc ch => if ch.name = afkName then ch.id else acc) 0

/-- The ignored-channel collection loop shared verbatim by all three
revisions: for each channel, one append per matching entry of the
configured ignored list. -/
def allowedIdleChannels (channels : List Channel) (ignored : List String) : List Int :=
  channels.foldl
    (fun acc ch => acc ++ (ignored.filter (fun ig => ch.name = ig)).map (fun _ => ch.id)) []

/-- Linear search helper (contains in main.go, isChannelIgnored in the
later revisions). -/
def isChannelIgnored (channels : List Int) (id : Int) : Bool :=
  channels.any (fun c => c == id)

namespace Main0

/-- Configuration fields read by the cycle logic of main.go; connection
and credential fields belong to the excluded RPC boundary. -/
structure Config where
  afkChannelName : String
  maxIdleTimeMs : Int
  ignoredChannels : List String
deriving DecidableEq

inductive Outcome where
  | fatal
  | completed (trace : List Event)
deriving DecidableEq

/-- Per-client body of the loop in main.go: idle check, then ignored and
afk exemptions, else a clientmove command. -/
def evalClient (afkId : Int) (allowed : List Int) (mx : Int) (c : Client) : Event :=
  if c.idleTimeMs > mx then
    if isChannelIgnored allowed c.channelId then .skipIgnored c.id
    else if c.channelId = afkId then .skipAfk c.id
    else .move c.id afkId
  else .notIdle c.id

/-- One iteration of the main.go poll loop.  A failed ChannelList or
ClientList hits log.Fatal, as does a missing afk channel. -/
def cycle (chRes : Option (List Channel)) (clRes : Option (List Client))
    (cfg : Config) : Outcome :=
  match chRes with
  | none => .fatal
  | some channels =>
    let afkId := resolveAfkId channels cfg.afkChannelName
    let allowed := allowedIdleChannels channels cfg.ignoredChannels
    if afkId = 0 then .fatal
    else
      match clRes with
      | none => .fatal
      | some clients => .completed (clients.map (evalClient afkId allowed cfg.maxIdleTimeMs))

def Outcome.trace : Outcome → List Event
  | .completed tr => tr
  | .fatal => []

end Main0

namespace Rev1

/-- Configuration fields read by the cycle logic of part_001. -/
structure Config where
  afkChannelName : String
  maxIdleTimeMs : Int
  ignoredChannels : List String
deriving DecidableEq

/-- Removal of the first occurrence, as the append slice surgery of
part_001 performs on soloClients. -/
def removeFirst (x : Int) : List Int → List Int
  | [] => []
  | y :: ys => if y = x then ys else y :: removeFirst x ys

/-- The inner c2 scan of part_001 lines 207 to 222, verbatim: for every
scanned client that is not a co-occupant (the processed client itself
included) it sets isSolo and appends the processed id to soloClients; on
the first co-occupant it clears isSolo, removes one stored occurrence of
the id if present (setting the grace flag), and breaks.  Returns
(isSolo, isGracePeriod, soloClients). -/
def soloScan (c : Client) : List Client → List Int → Bool → Bool × Bool × List Int
  | [], solo, b => (b, false, solo)
  | c2 :: rest, solo, _ =>
    if c2.channelId = c.channelId ∧ c2.id ≠ c.id then
      if c.id ∈ solo then (false, true, removeFirst c.id solo)
      else (false, false, solo)
    else soloScan c rest (solo ++ [c.id]) true

/-- Per-client body of the part_001 loop: idle, ignored and afk checks,
then the solo scan deciding between the solo skip, the grace skip and a
clientmove command.  Returns the event plus the updated soloClients. -/
def evalClient (afkId : Int) (allowed : List Int) (mx : Int) (clients : List Client)
    (c : Client) (solo : List Int) : Event × List Int :=
  if c.idleTimeMs > mx then
    if isChannelIgnored allowed c.channelId then (.skipIgnored c.id, solo)
    else if c.channelId = afkId then (.skipAfk c.id, solo)
    else
      let t := soloScan c clients solo false
      if t.1 then (.skipSolo c.id, t.2.2)
      else if t.2.1 then (.skipGrace c.id, t.2.2)
      else (.move c.id afkId, t.2.2)
  else (.notIdle c.id, solo)

/-- The client loop of part_001, threading soloClients. -/
def runClients (afkId : Int) (allowed : List Int) (mx : Int) (clients : List Client) :
    List Client → List Int → List Event × List Int
  | [], solo => ([], solo)
  | c :: rest, solo =>
    let p := evalClient afkId allowed mx clients c solo
    let q := runClients afkId allowed mx clients rest p.2
    (p.1 :: q.1, q.2)

inductive Outcome where
  | fatal
  | skipped (solo : List Int)
  | completed (trace : List Event) (solo : List Int)
deriving DecidableEq

/-- One iteration of the part_001 poll loop.  A failed listing logs,
waits five seconds and skips the cycle (soloClients untouched); a missing
afk channel hits zap Fatal. -/
def cycle (chRes : Option (List Channel)) (clRes : Option (List Client))
    (cfg : Config) (solo : List Int) : Outcome :=
  match chRes with
  | none => .skipped solo
  | some channels =>
    let afkId := resolveAfkId channels cfg.afkChannelName
    let allowed := allowedIdleChannels channels cfg.ignoredChannels
    if afkId = 0 then .fatal
    else
      match clRes with
      | none => .skipped solo
      | some clients =>
        let p := runClients afkId allowed cfg.maxIdleTimeMs clients clients solo
        .completed p.1 p.2

def Outcome.trace : Outcome → List Event
  | .completed tr _ => tr
  | .skipped _ => []
  | .fatal => []

def Outcome.soloAfter : Outcome → List Int
  | .completed _ s => s
  | .skipped s => s
  | .fatal => []

end Rev1

namespace Rev2

/-- Configuration fields read by part_002, including the
TS3_ALLOW_GRACE_PERIOD flag parsed by loadConfigFromEnv. -/
structure Config where
  afkChannelName : String
  maxIdleTimeMs : Int
  ignoredChannels : List String
  allowGracePeriod : Bool
deriving DecidableEq

/-- The recentJoins map of part_002: channelId to the time of the last
detected join, in milliseconds. -/
def RJMap := List (Int × Int)

def lookupJoin : List (Int × Int) → Int → Option Int
  | [], _ => none
  | (k, v) :: rest, ch => if k = ch then some v else lookupJoin rest ch

/-- The freshness test of part_002: a stored join time within ten seconds
of now. -/
def isRecentJoin (m : List (Int × Int)) (now ch : Int) : Bool :=
  match lookupJoin m ch with
  | some t => now - t ≤ 10000
  | none => false

/-- The co-occupant search of part_002 lines 270 to 277. -/
def hasCoOccupant (clients : List Client) (c : Client) : Bool :=
  clients.any fun c2 => c2.channelId == c.channelId && !(c2.id == c.id)

/-- Body of the inner (duplicated) client loop of part_002: recent-join
check, idle check, ignored and afk exemptions, solo skip, else a
clientmove command. -/
def evalInner (m : List (Int × Int)) (now afkId : Int) (allowed : List Int) (mx : Int)
    (clients : List Client) (c : Client) : Event :=
  if isRecentJoin m now c.channelId then .skipRecentJoin c.id
  else if c.idleTimeMs > mx then
    if isChannelIgnored allowed c.channelId then .skipIgnored c.id
    else if c.channelId = afkId then .skipAfk c.id
    else if hasCoOccupant clients c then .move c.id afkId
    else .skipSolo c.id
  else .notIdle c.id

/-- Body of the outer client loop of part_002: its own recent-join check
and clientinfo fetch, then the full inner loop over all clients again
(the duplicated-loop structure of lines 210 to 291). -/
def evalOuter (m : List (Int × Int)) (now afkId : Int) (allowed : List Int) (mx : Int)
    (clients : List Client) (c : Client) : List Event :=
  if isRecentJoin m now c.channelId then [.skipRecentJoin c.id]
  else clients.map (evalInner m now afkId allowed mx clients)

inductive Outcome where
  | fatal
  | skipped (m : List (Int × Int))
  | completed (trace : List Event) (m : List (Int × Int))
deriving DecidableEq

/-- One call of processClients in part_002.  A failed listing logs, waits
five seconds and returns (cycle skipped); a missing afk channel hits zap
Fatal.  The recentJoins map is carried through unchanged because no
statement of part_002 writes to it. -/
def processClients (chRes : Option (List Channel)) (clRes : Option (List Client))
    (cfg : Config) (m : List (Int × Int)) (now : Int) : Outcome :=
  match chRes with
  | none => .skipped m
  | some channels =>
    let afkId := resolveAfkId channels cfg.afkChannelName
    let allowed := allowedIdleChannels channels cfg.ignoredChannels
    if afkId = 0 then .fatal
    else
      match clRes with
      | none => .skipped m
      | some clients =>
        .completed (clients.flatMap (evalOuter m now afkId allowed cfg.maxIdleTimeMs clients)) m

def Outcome.trace : Outcome → List Event
  | .completed tr _ => tr
  | .skipped _ => []
  | .fatal => []

/-- The inputs one poll cycle of part_002 draws from the outside world. -/
structure CycleInput where
  chRes : Option (List Channel)
  clRes : Option (List Client)
  cfg : Config
  now : Int

/-- The recentJoins map after one cycle (on fatal the process is dead and
the map is simply kept for the statement of reachability). -/
def stateAfter (m : List (Int × Int)) (inp : CycleInput) : List (Int × Int) :=
  match processClients inp.chRes inp.clRes inp.cfg m inp.now with
  | .fatal => m
  | .skipped m2 => m2
  | .completed _ m2 => m2

/-- The recentJoins map reached after a sequence of cycles from the empty
initial map the process starts with. -/
def runFromEmpty (inputs : List CycleInput) : List (Int × Int) :=
  inputs.foldl stateAfter []

end Rev2

/-- The channel snapshot of the spec test scenario. -/
def specChannels : List Channel := [⟨1, "Lobby"⟩, ⟨2, "AFK"⟩, ⟨3, "Quiet"⟩]

/-- The client snapshot of the spec test scenario. -/
def specClients : List Client :=
  [⟨10, "A", 1, 120000⟩, ⟨11, "B", 1, 500⟩, ⟨12, "C", 3, 900000⟩]

/-- Claim C2: on the spec scenario the claim expects exactly the single
move of client 10 to channel 2.  The code diverges in both revisions that
carry tracking state: part_001 emits no move at all (its solo scan first
appends client 10 while scanning client 10 itself, then finds co-occupant
11, removes the just-added entry and skips with the grace reason), and
part_002 emits the move of client 10 three times (its duplicated nested
client loop re-evaluates every client once per outer iteration). -/
theorem spec_scenario_diverges :
    movesOf (Rev1.cycle (some specChannels) (some specClients)
        ⟨"AFK", 60000, ["Quiet"]⟩ []).trace = []
    ∧ (Rev1.cycle (some specChannels) (some specClients)
        ⟨"AFK", 60000, ["Quiet"]⟩ []).trace
      = [.skipGrace 10, .notIdle 11, .skipIgnored 12]
    ∧ movesOf (Rev2.processClients (some specChannels) (some specClients)
        ⟨"AFK", 60000, ["Quiet"], false⟩ [] 0).trace
      = [(10, 2), (10, 2), (10, 2)] := by decide

/-- Claim C4: with two idle clients sharing a channel, the duplicated
nested loop of part_002 evaluates each client once per outer iteration
and issues the clientmove command for client 1 twice in a single cycle
(and likewise for client 2), against the claimed at-most-one move per
client per cycle. -/
theorem duplicate_moves_per_client :
    movesOf (Rev2.processClients (some [⟨1, "Lobby"⟩, ⟨2, "AFK"⟩])
        (some [⟨1, "A", 1, 120000⟩, ⟨2, "B", 1, 120000⟩])
        ⟨"AFK", 60000, [], false⟩ [] 0).trace
      = [(1, 2), (2, 2), (1, 2), (2, 2)]
    ∧ (movesOf (Rev2.processClients (some [⟨1, "Lobby"⟩, ⟨2, "AFK"⟩])
        (some [⟨1, "A", 1, 120000⟩, ⟨2, "B", 1, 120000⟩])
        ⟨"AFK", 60000, [], false⟩ [] 0).trace).count (1, 2) = 2 := by decide

/-- Claim C1: in the revision that carries the allowGracePeriod flag
(part_002), the cross-cycle grace policy is absent.  Client 1 is alone in
cycle N (skipped solo, but part_002 keeps no solo store), client 2 joins
its channel by cycle N+1, and with AllowGracePeriod set to true the code
still emits the clientmove command for client 1 in cycle N+1 (twice, via
the duplicated nested loop), where the claim requires no move. -/
theorem grace_flag_scenario_moves_anyway :
    movesOf (Rev2.processClients (some [⟨1, "Lobby"⟩, ⟨2, "AFK"⟩])
        (some [⟨1, "A", 1, 120000⟩])
        ⟨"AFK", 60000, [], true⟩ [] 0).trace = []
    ∧ movesOf (Rev2.processClients (some [⟨1, "Lobby"⟩, ⟨2, "AFK"⟩])
        (some [⟨1, "A", 1, 120000⟩, ⟨2, "B", 1, 500⟩])
        ⟨"AFK", 60000, [], true⟩ [] 0).trace
      = [(1, 2), (1, 2)] := by decide

/-- Claim C9: the soloClients store of part_001 is not a set.  With two
idle solo clients the scan of each client appends its id once per
non-co-occupant list entry, so after one cycle from the empty store the
store holds each id twice. -/
theorem solo_store_holds_duplicates :
    (Rev1.cycle (some [⟨1, "Red"⟩, ⟨2, "Blue"⟩, ⟨3, "AFK"⟩])
        (some [⟨1, "A", 1, 120000⟩, ⟨2, "B", 2, 120000⟩])
        ⟨"AFK", 60000, []⟩ []).soloAfter = [1, 1, 2, 2]
    ∧ ((Rev1.cycle (some [⟨1, "Red"⟩, ⟨2, "Blue"⟩, ⟨3, "AFK"⟩])
        (some [⟨1, "A", 1, 120000⟩, ⟨2, "B", 2, 120000⟩])
        ⟨"AFK", 60000, []⟩ []).soloAfter).count 1 = 2 := by decide

/-- The afk resolution loop keeps its zero initialisation when no channel
name matches the configured afk channel name. -/
theorem resolveAfkId_of_no_match (channels : List Channel) (afkName : String)
    (h : ∀ ch ∈ channels, ch.name ≠ afkName) : resolveAfkId channels afkName = 0 := by
  have aux : ∀ l : List Channel, (∀ ch ∈ l, ch.name ≠ afkName) → ∀ acc : Int,
      l.foldl (fun acc ch => if ch.name = afkName then ch.id else acc) acc = acc := by
    intro l
    induction l with
    | nil => intro _ _; rfl
    | cons d rest ih =>
      intro hl acc
      have hd : d.name ≠ afkName := hl d (List.mem_cons_self _ _)
      rw [List.foldl_cons, if_neg hd]
      exact ih (fun e he => hl e (List.mem_cons_of_mem _ he)) acc
  exact aux channels h 0

/-- Claim C6: when the fetched channel snapshot has no channel named like
the configured afk channel, the cycle ends in the fatal outcome (process
termination) instead of a skip, whatever the client listing returns and
whatever state the process carries, hence in every cycle.  Stated for the
part_002 revision and the main.go revision, whose resolution and fatal
check are identical. -/
theorem afk_channel_missing_is_fatal (channels : List Channel)
    (clRes : Option (List Client)) (cfg2 : Rev2.Config) (cfg0 : Main0.Config)
    (m : List (Int × Int)) (now : Int)
    (h2 : ∀ ch ∈ channels, ch.name ≠ cfg2.afkChannelName)
    (h0 : ∀ ch ∈ channels, ch.name ≠ cfg0.afkChannelName) :
    Rev2.processClients (some channels) clRes cfg2 m now = Rev2.Outcome.fatal
    ∧ Main0.cycle (some channels) clRes cfg0 = Main0.Outcome.fatal := by
  have e2 := resolveAfkId_of_no_match channels _ h2
  have e0 := resolveAfkId_of_no_match channels _ h0
  constructor
  · simp [Rev2.processClients, e2]
  · simp [Main0.cycle, e0]

/-- Witness for claim C6 at a concrete snapshot without an AFK channel. -/
theorem afk_channel_missing_is_fatal_witness :
    (∀ ch ∈ [Channel.mk 1 "Lobby"], ch.name ≠ "AFK")
    ∧ (Rev2.processClients (some [⟨1, "Lobby"⟩]) (some [])
        ⟨"AFK", 60000, [], false⟩ [] 0 = Rev2.Outcome.fatal
      ∧ Main0.cycle (some [⟨1, "Lobby"⟩]) (some []) ⟨"AFK", 60000, []⟩
        = Main0.Outcome.fatal) :=
  ⟨by decide,
   afk_channel_missing_is_fatal [⟨1, "Lobby"⟩] (some []) ⟨"AFK", 60000, [], false⟩
     ⟨"AFK", 60000, []⟩ [] 0 (by decide) (by decide)⟩

/-- Claim C5, counterexample: in the main.go revision a failed channel
listing does not skip the cycle; it hits log.Fatal and the process
terminates. -/
theorem channel_list_failure_fatal_in_main0 :
    Main0.cycle none (some []) ⟨"AFK", 60000, []⟩ = Main0.Outcome.fatal := by decide

/-- Claim C5, amended: in the part_001 and part_002 revisions a failed
channel or client listing makes the cycle end in the skipped outcome with
the carried state (soloClients, recentJoins) returned unchanged and no
client evaluated; for a failed client listing this presumes the afk
channel resolved, because the fatal afk check runs before the client
listing.  The main.go revision instead terminates on a failed listing. -/
theorem list_failure_skips_cycle_keeping_state (channels : List Channel)
    (clRes1 clRes2 : Option (List Client)) (cfg1 : Rev1.Config) (cfg2 : Rev2.Config)
    (solo : List Int) (m : List (Int × Int)) (now : Int)
    (h1 : resolveAfkId channels cfg1.afkChannelName ≠ 0)
    (h2 : resolveAfkId channels cfg2.afkChannelName ≠ 0) :
    Rev1.cycle none clRes1 cfg1 solo = Rev1.Outcome.skipped solo
    ∧ Rev2.processClients none clRes2 cfg2 m now = Rev2.Outcome.skipped m
    ∧ Rev1.cycle (some channels) none cfg1 solo = Rev1.Outcome.skipped solo
    ∧ Rev2.processClients (some channels) none cfg2 m now = Rev2.Outcome.skipped m := by
  refine ⟨rfl, rfl, ?_, ?_⟩
  · simp [Rev1.cycle, h1]
  · simp [Rev2.processClients, h2]

/-- Witness for the amended claim C5 at a concrete resolvable snapshot. -/
theorem list_failure_skips_cycle_keeping_state_witness :
    resolveAfkId [⟨2, "AFK"⟩] "AFK" ≠ 0
    ∧ (Rev1.cycle none (some []) ⟨"AFK", 60000, []⟩ [3] = Rev1.Outcome.skipped [3]
      ∧ Rev2.processClients none (some []) ⟨"AFK", 60000, [], true⟩ [(1, 5)] 0
        = Rev2.Outcome.skipped [(1, 5)]
      ∧ Rev1.cycle (some [⟨2, "AFK"⟩]) none ⟨"AFK", 60000, []⟩ [3]
        = Rev1.Outcome.skipped [3]
      ∧ Rev2.processClients (some [⟨2, "AFK"⟩]) none ⟨"AFK", 60000, [], true⟩ [(1, 5)] 0
        = Rev2.Outcome.skipped [(1, 5)]) :=
  ⟨by decide,
   list_failure_skips_cycle_keeping_state [⟨2, "AFK"⟩] (some []) (some [])
     ⟨"AFK", 60000, []⟩ ⟨"AFK", 60000, [], true⟩ [3] [(1, 5)] 0 (by decide) (by decide)⟩

/-- Claim C10: the per-cycle evaluation of part_002 never reads the
AllowGracePeriod field, so two runs on the same inputs whose
configurations agree on every other field produce the same outcome: the
same skip events, the same clientmove commands and the same returned
recentJoins map. -/
theorem allow_grace_flag_has_no_effect (chRes : Option (List Channel))
    (clRes : Option (List Client)) (m : List (Int × Int)) (now : Int)
    (cfg cfg2 : Rev2.Config)
    (hname : cfg.afkChannelName = cfg2.afkChannelName)
    (hmax : cfg.maxIdleTimeMs = cfg2.maxIdleTimeMs)
    (hign : cfg.ignoredChannels = cfg2.ignoredChannels) :
    Rev2.processClients chRes clRes cfg m now
      = Rev2.processClients chRes clRes cfg2 m now := by
  obtain ⟨a, b, c, d⟩ := cfg
  obtain ⟨a2, b2, c2, d2⟩ := cfg2
  simp only [Rev2.Config.afkChannelName, Rev2.Config.maxIdleTimeMs,
    Rev2.Config.ignoredChannels] at hname hmax hign
  subst hname
  subst hmax
  subst hign
  rfl

/-- Witness for claim C10 on the spec scenario with the flag flipped. -/
theorem allow_grace_flag_has_no_effect_witness :
    Rev2.processClients (some specChannels) (some specClients)
      ⟨"AFK", 60000, ["Quiet"], true⟩ [] 0
    = Rev2.processClients (some specChannels) (some specClients)
      ⟨"AFK", 60000, ["Quiet"], false⟩ [] 0 :=
  allow_grace_flag_has_no_effect (some specChannels) (some specClients) [] 0
    ⟨"AFK", 60000, ["Quiet"], true⟩ ⟨"AFK", 60000, ["Quiet"], false⟩ rfl rfl rfl

/-- No branch of processClients writes to the recentJoins map: it is
returned exactly as supplied, whatever the cycle inputs. -/
theorem stateAfter_eq_self (m : List (Int × Int)) (inp : Rev2.CycleInput) :
    Rev2.stateAfter m inp = m := by
  unfold Rev2.stateAfter
  cases hch : inp.chRes with
  | none => simp [Rev2.processClients]
  | some channels =>
    by_cases hz : resolveAfkId channels inp.cfg.afkChannelName = 0
    · simp [Rev2.processClients, hz]
    · cases hcl : inp.clRes with
      | none => simp [Rev2.processClients, hz]
      | some clients => simp [Rev2.processClients, hz]

/-- Every recentJoins map reachable from the empty initial map is empty. -/
theorem runFromEmpty_eq_nil (inputs : List Rev2.CycleInput) :
    Rev2.runFromEmpty inputs = [] := by
  unfold Rev2.runFromEmpty
  induction inputs with
  | nil => rfl
  | cons i is ih => rw [List.foldl_cons, stateAfter_eq_self]; exact ih

/-- On the empty map the ten-second freshness test never fires. -/
theorem isRecentJoin_empty (now ch : Int) : Rev2.isRecentJoin [] now ch = false := rfl

/-- With an empty recentJoins map the inner evaluation never produces the
recent-join skip. -/
theorem evalInner_empty_ne_skipRecentJoin (now afkId : Int) (allowed : List Int)
    (mx : Int) (clients : List Client) (c : Client) (i : Int) :
    Rev2.evalInner [] now afkId allowed mx clients c ≠ Event.skipRecentJoin i := by
  unfold Rev2.evalInner
  rw [isRecentJoin_empty]
  simp only [Bool.false_eq_true, if_false]
  split_ifs <;> intro h <;> exact Event.noConfusion h

/-- Claim C7: starting from the empty recentJoins map the process begins
with, the map is empty in every reachable state (no operation of part_002
ever writes it), and hence no cycle run from a reachable state ever
contains a recent-join-grace skip. -/
theorem recent_joins_never_written (inputs : List Rev2.CycleInput)
    (inp : Rev2.CycleInput) (i : Int) :
    Rev2.runFromEmpty inputs = []
    ∧ Event.skipRecentJoin i ∉
        (Rev2.processClients inp.chRes inp.clRes inp.cfg
          (Rev2.runFromEmpty inputs) inp.now).trace := by
  refine ⟨runFromEmpty_eq_nil inputs, ?_⟩
  rw [runFromEmpty_eq_nil]
  cases hch : inp.chRes with
  | none => simp [Rev2.processClients, Rev2.Outcome.trace]
  | some channels =>
    by_cases hz : resolveAfkId channels inp.cfg.afkChannelName = 0
    · simp [Rev2.processClients, hz, Rev2.Outcome.trace]
    · cases hcl : inp.clRes with
      | none => simp [Rev2.processClients, hz, Rev2.Outcome.trace]
      | some clients =>
        simp only [Rev2.processClients, hz, if_false, Rev2.Outcome.trace,
          List.mem_flatMap, not_exists, not_and]
        intro c hc hmem
        unfold Rev2.evalOuter at hmem
        rw [isRecentJoin_empty] at hmem
        simp only [Bool.false_eq_true, if_false, List.mem_map] at hmem
        obtain ⟨c2, hc2, heq⟩ := hmem
        exact evalInner_empty_ne_skipRecentJoin inp.now _ _ inp.cfg.maxIdleTimeMs
          clients c2 i heq

/-- Every event of the main.go per-client body names the evaluated
client. -/
theorem evalClient0_clientId (afkId : Int) (allowed : List Int) (mx : Int)
    (c : Client) : (Main0.evalClient afkId allowed mx c).clientId = c.id := by
  unfold Main0.evalClient
  split_ifs <;> rfl

/-- Every event of the part_002 inner body names the evaluated client. -/
theorem evalInner_clientId (m : List (Int × Int)) (now afkId : Int)
    (allowed : List Int) (mx : Int) (clients : List Client) (c : Client) :
    (Rev2.evalInner m now afkId allowed mx clients c).clientId = c.id := by
  unfold Rev2.evalInner
  split_ifs <;> rfl

/-- Claim C8: a client whose channel is the resolved afk channel is never
moved, whatever its idle time, so re-evaluating a snapshot in which a
moved client now shows the afk channel yields no further move for it.
Stated for the main.go revision and the part_002 revision; the hypothesis
says every snapshot entry carrying the id sits in the afk channel (ids
are unique per snapshot in the intended data model). -/
theorem afk_resident_never_moved (channels : List Channel) (clients : List Client)
    (cfg0 : Main0.Config) (cfg2 : Rev2.Config) (m : List (Int × Int)) (now : Int)
    (i t : Int)
    (h0 : ∀ d ∈ clients, d.id = i → d.channelId = resolveAfkId channels cfg0.afkChannelName)
    (h2 : ∀ d ∈ clients, d.id = i → d.channelId = resolveAfkId channels cfg2.afkChannelName) :
    Event.move i t ∉ (Main0.cycle (some channels) (some clients) cfg0).trace
    ∧ Event.move i t ∉
        (Rev2.processClients (some channels) (some clients) cfg2 m now).trace := by
  constructor
  · by_cases hz : resolveAfkId channels cfg0.afkChannelName = 0
    · simp [Main0.cycle, hz, Main0.Outcome.trace]
    · simp only [Main0.cycle, hz, if_false, Main0.Outcome.trace, List.mem_map,
        not_exists, not_and]
      intro d hd heq
      have hid : d.id = i := by
        have := evalClient0_clientId (resolveAfkId channels cfg0.afkChannelName)
          (allowedIdleChannels channels cfg0.ignoredChannels) cfg0.maxIdleTimeMs d
        rw [heq] at this
        exact this.symm
      have hafk := h0 d hd hid
      unfold Main0.evalClient at heq
      split_ifs at heq
  · by_cases hz : resolveAfkId channels cfg2.afkChannelName = 0
    · simp [Rev2.processClients, hz, Rev2.Outcome.trace]
    · simp only [Rev2.processClients, hz, if_false, Rev2.Outcome.trace,
        List.mem_flatMap, not_exists, not_and]
      intro c hc hmem
      unfold Rev2.evalOuter at hmem
      by_cases hrj : Rev2.isRecentJoin m now c.channelId
      · rw [if_pos hrj] at hmem
        rcases List.mem_singleton.mp hmem with heq
        exact Event.noConfusion heq
      · rw [if_neg hrj] at hmem
        rcases List.mem_map.mp hmem with ⟨c2, hc2, heq⟩
        have hid : c2.id = i := by
          have := evalInner_clientId m now (resolveAfkId channels cfg2.afkChannelName)
            (allowedIdleChannels channels cfg2.ignoredChannels) cfg2.maxIdleTimeMs
            clients c2
          rw [heq] at this
          exact this.symm
        have hafk := h2 c2 hc2 hid
        unfold Rev2.evalInner at heq
        split_ifs at heq

/-- Witness for claim C8: an idle client already in the AFK channel. -/
theorem afk_resident_never_moved_witness :
    (∀ d ∈ [Client.mk 7 "Z" 2 999999], d.id = 7 →
      d.channelId = resolveAfkId [⟨1, "Lobby"⟩, ⟨2, "AFK"⟩] "AFK")
    ∧ (Event.move 7 2 ∉ (Main0.cycle (some [⟨1, "Lobby"⟩, ⟨2, "AFK"⟩])
        (some [⟨7, "Z", 2, 999999⟩]) ⟨"AFK", 60000, []⟩).trace
      ∧ Event.move 7 2 ∉ (Rev2.processClients (some [⟨1, "Lobby"⟩, ⟨2, "AFK"⟩])
        (some [⟨7, "Z", 2, 999999⟩]) ⟨"AFK", 60000, [], false⟩ [] 0).trace) :=
  ⟨by decide,
   afk_resident_never_moved [⟨1, "Lobby"⟩, ⟨2, "AFK"⟩] [⟨7, "Z", 2, 999999⟩]
     ⟨"AFK", 60000, []⟩ ⟨"AFK", 60000, [], false⟩ [] 0 7 2 (by decide) (by decide)⟩

/-- Removing the first occurrence of one value keeps every other value. -/
theorem mem_removeFirst_of_ne (x y : Int) (l : List Int) (hne : x ≠ y) :
    x ∈ l → x ∈ Rev1.removeFirst y l := by
  induction l with
  | nil => intro hx; cases hx
  | cons a as ih =>
    intro hx
    unfold Rev1.removeFirst
    by_cases ha : a = y
    · rw [if_pos ha]
      rcases List.mem_cons.mp hx with h | h
      · exact absurd (h.trans ha) hne
      · exact h
    · rw [if_neg ha]
      rcases List.mem_cons.mp hx with h | h
      · subst h; exact List.mem_cons_self _ _
      · exact List.mem_cons_of_mem _ (ih h)

/-- The solo scan of part_001 only ever appends the scanned client's own
id and only ever removes one occurrence of that id, so every stored id of
another client survives the scan. -/
theorem soloScan_mem_of_ne (c : Client) (l : List Client) (solo : List Int)
    (b : Bool) (x : Int) (hne : x ≠ c.id) :
    x ∈ solo → x ∈ (Rev1.soloScan c l solo b).2.2 := by
  induction l generalizing solo b with
  | nil => intro hx; simpa [Rev1.soloScan] using hx
  | cons c2 rest ih =>
    intro hx
    unfold Rev1.soloScan
    by_cases h2 : c2.channelId = c.channelId ∧ c2.id ≠ c.id
    · rw [if_pos h2]
      by_cases hc : c.id ∈ solo
      · rw [if_pos hc]
        exact mem_removeFirst_of_ne x c.id solo hne hx
      · rw [if_neg hc]
        exact hx
    · rw [if_neg h2]
      exact ih (solo ++ [c.id]) true (List.mem_append_left _ hx)

/-- Scanning a client with no co-occupant in the list never breaks: every
iteration sets the solo flag and appends the client's id, the grace flag
stays clear, and the store grows by one copy of the id per list entry. -/
theorem soloScan_of_alone (c : Client) (l : List Client) (solo : List Int) (b : Bool)
    (hl : ∀ d ∈ l, d.channelId = c.channelId → d.id = c.id) :
    Rev1.soloScan c l solo b
      = (if l.isEmpty then b else true, false, solo ++ l.map fun _ => c.id) := by
  induction l generalizing solo b with
  | nil => simp [Rev1.soloScan]
  | cons c2 rest ih =>
    have h2 : ¬(c2.channelId = c.channelId ∧ c2.id ≠ c.id) := by
      rintro ⟨hch, hid⟩
      exact hid (hl c2 (List.mem_cons_self _ _) hch)
    rw [Rev1.soloScan, if_neg h2,
      ih (solo ++ [c.id]) true (fun d hd => hl d (List.mem_cons_of_mem _ hd))]
    simp [List.append_assoc]

/-- Every event of the part_001 per-client body names the evaluated
client. -/
theorem evalClient1_fst_clientId (afkId : Int) (allowed : List Int) (mx : Int)
    (clients : List Client) (c : Client) (solo : List Int) :
    ((Rev1.evalClient afkId allowed mx clients c solo).1).clientId = c.id := by
  simp only [Rev1.evalClient]
  split_ifs <;> rfl

/-- The part_001 per-client body keeps every stored id of another
client. -/
theorem evalClient1_mem_of_ne (afkId : Int) (allowed : List Int) (mx : Int)
    (clients : List Client) (c : Client) (solo : List Int) (x : Int) (hne : x ≠ c.id) :
    x ∈ solo → x ∈ (Rev1.evalClient afkId allowed mx clients c solo).2 := by
  intro hx
  simp only [Rev1.evalClient]
  split_ifs <;>
    first
      | exact hx
      | exact soloScan_mem_of_ne c clients solo false x hne hx

/-- The part_001 evaluation of an idle, unexempt client alone in its
channel: the event is the solo skip and the store grows by one copy of
the id per snapshot entry. -/
theorem evalClient1_of_alone (afkId : Int) (allowed : List Int) (mx : Int)
    (clients : List Client) (c : Client) (solo : List Int)
    (hnil : clients ≠ [])
    (halone : ∀ d ∈ clients, d.channelId = c.channelId → d.id = c.id)
    (hidle : c.idleTimeMs > mx)
    (hign : isChannelIgnored allowed c.channelId = false)
    (hafk : c.channelId ≠ afkId) :
    Rev1.evalClient afkId allowed mx clients c solo
      = (Event.skipSolo c.id, solo ++ clients.map fun _ => c.id) := by
  simp only [Rev1.evalClient]
  rw [if_pos hidle, if_neg (by simp [hign]), if_neg hafk,
    soloScan_of_alone c clients solo false halone,
    List.isEmpty_eq_false.mpr hnil]
  simp

/-- Splitting the part_001 client loop at a list split point. -/
theorem runClients_append (afkId : Int) (allowed : List Int) (mx : Int)
    (clients : List Client) (l1 l2 : List Client) (solo : List Int) :
    Rev1.runClients afkId allowed mx clients (l1 ++ l2) solo
      = ((Rev1.runClients afkId allowed mx clients l1 solo).1
          ++ (Rev1.runClients afkId allowed mx clients l2
              (Rev1.runClients afkId allowed mx clients l1 solo).2).1,
         (Rev1.runClients afkId allowed mx clients l2
             (Rev1.runClients afkId allowed mx clients l1 solo).2).2) := by
  induction l1 generalizing solo with
  | nil => simp [Rev1.runClients]
  | cons d rest ih => simp [Rev1.runClients, ih]

/-- The part_001 client loop keeps a stored id that belongs to none of
the clients it still has to process. -/
theorem runClients_mem_of_ne (afkId : Int) (allowed : List Int) (mx : Int)
    (clients : List Client) (l : List Client) (x : Int) :
    ∀ solo, (∀ d ∈ l, x ≠ d.id) → x ∈ solo →
      x ∈ (Rev1.runClients afkId allowed mx clients l solo).2 := by
  induction l with
  | nil => intro solo _ hx; simpa [Rev1.runClients] using hx
  | cons d rest ih =>
    intro solo hl hx
    simp only [Rev1.runClients]
    exact ih _ (fun e he => hl e (List.mem_cons_of_mem _ he))
      (evalClient1_mem_of_ne afkId allowed mx clients d solo x
        (hl d (List.mem_cons_self _ _)) hx)

/-- Every event the part_001 client loop emits is the event of the
per-client body at some processed client and some intermediate store. -/
theorem runClients_trace_src (afkId : Int) (allowed : List Int) (mx : Int)
    (clients : List Client) (l : List Client) (ev : Event) :
    ∀ solo, ev ∈ (Rev1.runClients afkId allowed mx clients l solo).1 →
      ∃ d ∈ l, ∃ s, ev = (Rev1.evalClient afkId allowed mx clients d s).1 := by
  induction l with
  | nil => intro solo h; simp [Rev1.runClients] at h
  | cons d rest ih =>
    intro solo h
    simp only [Rev1.runClients, List.mem_cons] at h
    rcases h with h1 | h1
    · exact ⟨d, List.mem_cons_self _ _, solo, h1⟩
    · obtain ⟨d2, hd2, s, hs⟩ := ih _ h1
      exact ⟨d2, List.mem_cons_of_mem _ hd2, s, hs⟩

/-- The successful part_001 cycle is the client loop run on the fetched
snapshot. -/
theorem cycle1_eq_completed (channels : List Channel) (clients : List Client)
    (cfg : Rev1.Config) (solo : List Int)
    (h : resolveAfkId channels cfg.afkChannelName ≠ 0) :
    Rev1.cycle (some channels) (some clients) cfg solo
      = Rev1.Outcome.completed
          (Rev1.runClients (resolveAfkId channels cfg.afkChannelName)
            (allowedIdleChannels channels cfg.ignoredChannels)
            cfg.maxIdleTimeMs clients clients solo).1
          (Rev1.runClients (resolveAfkId channels cfg.afkChannelName)
            (allowedIdleChannels channels cfg.ignoredChannels)
            cfg.maxIdleTimeMs clients clients solo).2 := by
  simp [Rev1.cycle, h]

/-- The trace of a successful part_002 cycle is the duplicated nested
loop run on the fetched snapshot. -/
theorem processClients2_trace (channels : List Channel) (clients : List Client)
    (cfg : Rev2.Config) (m : List (Int × Int)) (now : Int)
    (h : resolveAfkId channels cfg.afkChannelName ≠ 0) :
    (Rev2.processClients (some channels) (some clients) cfg m now).trace
      = clients.flatMap (Rev2.evalOuter m now (resolveAfkId channels cfg.afkChannelName)
          (allowedIdleChannels channels cfg.ignoredChannels) cfg.maxIdleTimeMs clients) := by
  simp [Rev2.processClients, h, Rev2.Outcome.trace]

/-- Claim C3: a client alone in its channel whose idle time exceeds the
threshold, neither in an ignored channel nor in the afk channel (and with
the afk channel resolved, ids unique per snapshot), is not moved by the
cycle, and in the revision carrying the solo store (part_001) its id is
recorded in the store the cycle returns; the part_002 revision likewise
emits no move for it (there the recent-join check may also fire first,
which is again not a move). -/
theorem solo_idle_client_not_moved_and_recorded
    (channels : List Channel) (clients : List Client) (c : Client)
    (afkName : String) (mx : Int) (ign : List String) (g : Bool)
    (solo : List Int) (m : List (Int × Int)) (now : Int)
    (hmem : c ∈ clients)
    (hnodup : (clients.map Client.id).Nodup)
    (halone : ∀ d ∈ clients, d.channelId = c.channelId → d.id = c.id)
    (hidle : c.idleTimeMs > mx)
    (hign : isChannelIgnored (allowedIdleChannels channels ign) c.channelId = false)
    (hnafk : c.channelId ≠ resolveAfkId channels afkName)
    (hafk : resolveAfkId channels afkName ≠ 0) :
    (∀ t, Event.move c.id t ∉
        (Rev1.cycle (some channels) (some clients) ⟨afkName, mx, ign⟩ solo).trace)
    ∧ c.id ∈ (Rev1.cycle (some channels) (some clients) ⟨afkName, mx, ign⟩ solo).soloAfter
    ∧ (∀ t, Event.move c.id t ∉
        (Rev2.processClients (some channels) (some clients) ⟨afkName, mx, ign, g⟩ m now).trace) := by
  have hnil : clients ≠ [] := by rintro rfl; cases hmem
  have e1 := cycle1_eq_completed channels clients ⟨afkName, mx, ign⟩ solo hafk
  refine ⟨?_, ?_, ?_⟩
  · intro t hm
    rw [e1] at hm
    simp only [Rev1.Outcome.trace] at hm
    obtain ⟨d, hd, s, hs⟩ := runClients_trace_src (resolveAfkId channels afkName)
      (allowedIdleChannels channels ign) mx clients clients (Event.move c.id t) solo hm
    have hid : d.id = c.id := by
      have h1 := evalClient1_fst_clientId (resolveAfkId channels afkName)
        (allowedIdleChannels channels ign) mx clients d s
      rw [← hs] at h1
      exact h1.symm
    have hdc : d = c := List.inj_on_of_nodup_map hnodup hd hmem hid
    subst hdc
    rw [evalClient1_of_alone (resolveAfkId channels afkName)
      (allowedIdleChannels channels ign) mx clients d s hnil halone hidle hign hnafk] at hs
    exact Event.noConfusion hs
  · rw [e1]
    simp only [Rev1.Outcome.soloAfter]
    obtain ⟨pre, post, rfl⟩ := List.append_of_mem hmem
    rw [runClients_append]
    simp only [Rev1.runClients]
    rw [evalClient1_of_alone (resolveAfkId channels afkName)
      (allowedIdleChannels channels ign) mx (pre ++ c :: post) c _ hnil halone hidle hign hnafk]
    have hpost : ∀ d ∈ post, c.id ≠ d.id := by
      intro d hd heq
      have h2 : ((c :: post).map Client.id).Nodup := by
        rw [List.map_append] at hnodup
        exact hnodup.of_append_right
      rw [List.map_cons, List.nodup_cons] at h2
      exact h2.1 (heq ▸ List.mem_map_of_mem Client.id hd)
    refine runClients_mem_of_ne _ _ _ _ post c.id _ hpost ?_
    exact List.mem_append_right _ (List.mem_map_of_mem _ hmem)
  · intro t hm
    rw [processClients2_trace channels clients ⟨afkName, mx, ign, g⟩ m now hafk] at hm
    rw [List.mem_flatMap] at hm
    obtain ⟨d, hd, hm2⟩ := hm
    unfold Rev2.evalOuter at hm2
    by_cases hrj : Rev2.isRecentJoin m now d.channelId
    · rw [if_pos hrj] at hm2
      exact Event.noConfusion (List.mem_singleton.mp hm2)
    · rw [if_neg hrj] at hm2
      obtain ⟨d2, hd2, heq⟩ := List.mem_map.mp hm2
      have hid : d2.id = c.id := by
        have h1 := evalInner_clientId m now (resolveAfkId channels afkName)
          (allowedIdleChannels channels ign) mx clients d2
        rw [heq] at h1
        exact h1.symm
      have hd2c : d2 = c := List.inj_on_of_nodup_map hnodup hd2 hmem hid
      subst hd2c
      have hsolo : Rev2.hasCoOccupant clients d2 = false := by
        rw [Rev2.hasCoOccupant, List.any_eq_false]
        intro c2 hc2
        simp only [Bool.and_eq_true, beq_iff_eq, Bool.not_eq_eq_eq_not,
          Bool.not_true, not_and]
        intro hch
        simp [halone c2 hc2 hch]
      unfold Rev2.evalInner at heq
      split_ifs at heq
      simp_all

/-- Witness for claim C3: a single idle client alone in the lobby. -/
theorem solo_idle_client_not_moved_and_recorded_witness :
    Client.mk 5 "A" 1 120000 ∈ [Client.mk 5 "A" 1 120000]
    ∧ ((∀ t, Event.move 5 t ∉
          (Rev1.cycle (some [⟨1, "Lobby"⟩, ⟨2, "AFK"⟩]) (some [⟨5, "A", 1, 120000⟩])
            ⟨"AFK", 60000, []⟩ []).trace)
      ∧ (5 : Int) ∈ (Rev1.cycle (some [⟨1, "Lobby"⟩, ⟨2, "AFK"⟩])
          (some [⟨5, "A", 1, 120000⟩]) ⟨"AFK", 60000, []⟩ []).soloAfter
      ∧ (∀ t, Event.move 5 t ∉
          (Rev2.processClients (some [⟨1, "Lobby"⟩, ⟨2, "AFK"⟩])
            (some [⟨5, "A", 1, 120000⟩]) ⟨"AFK", 60000, [], false⟩ [] 0).trace)) :=
  ⟨by decide,
   solo_idle_client_not_moved_and_recorded [⟨1, "Lobby"⟩, ⟨2, "AFK"⟩]
     [⟨5, "A", 1, 120000⟩] ⟨5, "A", 1, 120000⟩ "AFK" 60000 [] false [] [] 0
     (by decide) (by decide) (by decide) (by decide) (by decide) (by decide) (by decide)⟩
